import Mathlib

/-!
Verification development for the Percepto application (src/app.py).

The file shallowly embeds the non-trivial logic of the program:
the image size reducer `PerceptoAI._image_to_base64` (lines 60-100),
the model-fallback description pipeline `PerceptoAI.analyze_image`
(lines 102-163), the two-tier text-to-speech fallback
`PerceptoAI._generate_audio` (lines 165-191) and the upload size check
of `render_upload_section` (lines 252-269).

External effects (the JPEG encoder of PIL, the Anthropic API, the two
TTS backends, the filesystem) are abstracted as explicit parameters or
oracles; the control flow of the Python code is translated directly.
-/

namespace Percepto

/-- A decoded PIL image, reduced to the attributes the program inspects:
pixel dimensions and color mode (`image.width`, `image.height`,
`image.mode`). -/
structure Img where
  width : Nat
  height : Nat
  mode : String
deriving DecidableEq, Repr

/-- Line 64-66 of app.py: `if image.mode == 'RGBA': image = image.convert('RGB')`.
Only the exact mode string RGBA is converted; every other mode is passed
through unchanged. -/
def convertRGBA (img : Img) : Img :=
  if img.mode = "RGBA" then { img with mode := "RGB" } else img

/-- Rounding of the shorter side performed by PIL `Image.thumbnail` in its
branch `x / y >= aspect` (requested size is square here, so this is the
branch width <= height): the new width is
`round_aspect(y * aspect, key=lambda n: abs(aspect - n / y))`, i.e. the
integer nearest to `num / den` (ties to floor, since `min` keeps its first
argument), clamped below by 1. -/
def roundAspect1 (num den : Nat) : Nat :=
  max 1 (if 2 * (num % den) ≤ den then num / den else num / den + 1)

/-- Rounding of the shorter side performed by PIL `Image.thumbnail` in its
branch `x / y < aspect` (width > height): the new height is
`round_aspect(x / aspect, key=lambda n: abs(aspect - x / n) if n else 0)`.
With `f = floor(num / den)` and `c = f + 1` the key comparison
`abs(aspect - x/f) <= abs(aspect - x/c)` reduces over the rationals to
`num * (f + c) <= 2 * f * c * den`; when `f = 0` the key of 0 is 0 which
always wins, and the result is then clamped to 1. -/
def roundAspect2 (num den : Nat) : Nat :=
  if num % den = 0 then max 1 (num / den)
  else if num / den = 0 then 1
  else if num * (2 * (num / den) + 1) ≤ 2 * (num / den) * (num / den + 1) * den
  then num / den
  else num / den + 1

/-- PIL `Image.thumbnail((m, m), LANCZOS)` as called on lines 71, 87 and 96
of app.py: a no-op when both dimensions already fit inside `m`, otherwise a
proportional downscale in which the longer side becomes `m` and the shorter
side is rounded (see `roundAspect1`, `roundAspect2`). Mode is unchanged. -/
def thumbnail (img : Img) (m : Nat) : Img :=
  if img.width ≤ m ∧ img.height ≤ m then img
  else if img.width ≤ img.height then
    { img with width := roundAspect1 (m * img.width) img.height, height := m }
  else
    { img with width := m, height := roundAspect2 (m * img.height) img.width }

/-- Line 74 of app.py: `max_size_bytes = 5 * 1024 * 1024`. -/
def maxBytes : Nat := 5 * 1024 * 1024

/-- Line 76 of app.py: the quality levels `[85, 70, 50, 30]`. -/
def qualityLadder : List Nat := [85, 70, 50, 30]

/-- Line 85 of app.py: the aggressive-resize bounds `[1280, 960, 640]`. -/
def dimLadder : List Nat := [1280, 960, 640]

/-- Lines 64-71 of app.py: the RGBA conversion followed by the guarded
1920-pixel thumbnail call. -/
def preprocess (img : Img) : Img :=
  if 1920 < (convertRGBA img).width ∨ 1920 < (convertRGBA img).height
  then thumbnail (convertRGBA img) 1920
  else convertRGBA img

/-- Lines 76-82 of app.py: try each quality level in order, returning the
first `(quality, byte length)` whose JPEG byte length is strictly below
`maxBytes`. `enc img q` abstracts the byte length of
`image.save(buffer, format='JPEG', quality=q, optimize=True)`. -/
def tryQualities (enc : Img → Nat → Nat) (img : Img) : List Nat → Option (Nat × Nat)
  | [] => none
  | q :: qs => if enc img q < maxBytes then some (q, enc img q) else tryQualities enc img qs

/-- Lines 95-100 of app.py: the final unconditional fallback. The image is
thumbnailed to at most 480 pixels, encoded at quality 30, and returned
without any size check. The result records the final image, the JPEG byte
length and the format tag. -/
def finalFallback (enc : Img → Nat → Nat) (img : Img) : Img × Nat × String :=
  (thumbnail img 480, enc (thumbnail img 480) 30, "jpeg")

/-- Lines 84-100 of app.py: the aggressive-resize loop over `dimLadder`
(each bound applied only when the image still exceeds it, re-encoding at
quality 50, accepting the first result under `maxBytes`), falling through
to `finalFallback`. The image is mutated across iterations as in the
Python loop. -/
def dimLoop (enc : Img → Nat → Nat) : Img → List Nat → Img × Nat × String
  | img, [] => finalFallback enc img
  | img, d :: ds =>
    if d < img.width ∨ d < img.height then
      if enc (thumbnail img d) 50 < maxBytes then
        (thumbnail img d, enc (thumbnail img d) 50, "jpeg")
      else dimLoop enc (thumbnail img d) ds
    else dimLoop enc img ds

/-- Lines 60-100 of app.py: `PerceptoAI._image_to_base64`. The returned
triple is the image state at the accepted encoding, the byte length of the
accepted JPEG encoding (the length checked against the 5 MiB ceiling on
lines 81 and 92), and the format tag. The base64 step on lines 82, 93 and
100 is a pure re-encoding of those bytes and is left implicit. -/
def imageToBase64 (enc : Img → Nat → Nat) (img0 : Img) : Img × Nat × String :=
  match tryQualities enc (preprocess img0) qualityLadder with
  | some (_, n) => (preprocess img0, n, "jpeg")
  | none => dimLoop enc (preprocess img0) dimLadder

/-- Spec section 8: the aspect ratio of `b` matches the aspect ratio of `a`
to within one pixel of rounding on the shorter side, i.e. the shorter side
of `b` differs from the exactly proportional value by at most one pixel
(stated multiplied through by the original longer side to stay in `Nat`). -/
def aspect1px (a b : Img) : Bool :=
  if a.width ≤ a.height then
    decide (b.width * a.height ≤ a.width * b.height + a.height) &&
    decide (a.width * b.height ≤ b.width * a.height + a.height)
  else
    decide (b.height * a.width ≤ a.height * b.width + a.width) &&
    decide (a.height * b.width ≤ b.height * a.width + a.width)

/-- Lines 49-54 of app.py: the fixed priority list `self.vision_models`. -/
def visionModels : List String :=
  ["claude-3-5-sonnet-20241022",
   "claude-3-5-haiku-20241022",
   "claude-3-sonnet-20240229",
   "claude-3-haiku-20240307"]

/-- The successful result dictionary built on lines 150-154 of app.py:
`description`, `audio_file` (optional audio bytes) and `model_used`. -/
structure AnalysisResult where
  description : String
  audio_file : Option (List Nat)
  model_used : String
deriving DecidableEq, Repr

/-- Lines 137-160 of app.py: the model-fallback loop of
`PerceptoAI.analyze_image`. `svc m` abstracts the remote call
`self.client.messages.create(model=m, ...)` together with the text
extraction `response.content[0].text`: `none` means any exception was
raised (network failure, server error, malformed response), `some t` a
successful response with text `t`. `gen` abstracts `self._generate_audio`.
The second component of the result counts how many speech-synthesis calls
were made: exactly one on the success branch (line 148), none otherwise. -/
def analyzeRun (svc : String → Option String) (gen : String → Option (List Nat)) :
    List String → Except String AnalysisResult × Nat
  | [] => (Except.error "All models failed. Please try again later.", 0)
  | m :: ms =>
    match svc m with
    | some text => (Except.ok ⟨text, gen text, m⟩, 1)
    | none => analyzeRun svc gen ms

/-- The point at which the pyttsx3 fallback of `_generate_audio` raises, if
it raises at all. `engineInit` covers lines 177-179 (engine creation and
property setting, before the temporary file exists); `synthesis` covers
lines 182-183 (`save_to_file` and `runAndWait`, after
`NamedTemporaryFile(delete=False)` has created the file); `fileRead`
covers lines 185-186 (reading the bytes back, file also already created). -/
inductive FailPoint
  | engineInit
  | synthesis
  | fileRead
deriving DecidableEq, Repr

/-- Lines 176-189 of app.py: the body of the pyttsx3 fallback, with the
filesystem `fs` modelled as the list of existing file names and `tmp` the
name handed out by `tempfile.NamedTemporaryFile(suffix='.wav',
delete=False)`. An exception at `engineInit` happens before the file is
created, so `fs` is unchanged; exceptions at `synthesis` or `fileRead`
happen after creation and before the `os.unlink` on line 188, so the file
remains in `fs`; on the success path the file is created, read into
`synthBytes` and unlinked, leaving `fs` as it was. -/
def pyttsx3Body (failAt : Option FailPoint) (synthBytes : List Nat) (tmp : String)
    (fs : List String) : Except Unit (List Nat) × List String :=
  match failAt with
  | some FailPoint.engineInit => (Except.error (), fs)
  | some FailPoint.synthesis => (Except.error (), tmp :: fs)
  | some FailPoint.fileRead => (Except.error (), tmp :: fs)
  | none => (Except.ok synthBytes, fs)

/-- Observable outcome of a call to `_generate_audio`: either a returned
value (audio bytes or `None`) or an escaping exception. -/
inductive TtsOutcome
  | val : Option (List Nat) → TtsOutcome
  | exn : TtsOutcome
deriving DecidableEq, Repr

/-- Lines 165-191 of app.py: `PerceptoAI._generate_audio`. `gtts text`
abstracts the gTTS call on lines 169-173 (`Except.error` meaning it raised);
on its failure the bare `except` enters the pyttsx3 fallback, and on the
fallback's failure the inner bare `except` returns `None`. The result pairs
the observable outcome with the final filesystem state. Both handlers catch
every exception, which is why no branch produces `TtsOutcome.exn`. -/
def generateAudio (gtts : String → Except Unit (List Nat)) (failAt : Option FailPoint)
    (synthBytes : List Nat) (tmp : String) (fs : List String) (text : String) :
    TtsOutcome × List String :=
  match gtts text with
  | Except.ok b => (TtsOutcome.val (some b), fs)
  | Except.error _ =>
    match pyttsx3Body failAt synthBytes tmp fs with
    | (Except.ok b, fs2) => (TtsOutcome.val (some b), fs2)
    | (Except.error _, fs2) => (TtsOutcome.val none, fs2)

/-- The value `analyze_image` stores in `audio_file`: the returned value of
`_generate_audio`. The `exn` case is unreachable (theorem `C10_total`); its
value here is immaterial. -/
def ttsToOption : TtsOutcome → Option (List Nat)
  | TtsOutcome.val o => o
  | TtsOutcome.exn => none

/-- Lines 257-258 of app.py: `max_size_bytes = 10 * 1024 * 1024`. -/
def maxUploadBytes : Nat := 10 * 1024 * 1024

/-- Rounding to the nearest integer with ties to even, `num / den` exact.
CPython's `format(x, '.1f')` rounds the exact binary value of the double
`x` half-to-even; `fmt1` applies it to `bytes * 10 / 2^20`. -/
def roundHalfEven (num den : Nat) : Nat :=
  if 2 * (num % den) < den then num / den
  else if den < 2 * (num % den) then num / den + 1
  else if num / den % 2 = 0 then num / den else num / den + 1

/-- The Python expression `f"{size / 1024 / 1024:.1f}"` on lines 261 and
266 of app.py. For `size < 2^53` the two float divisions by 1024 are exact
(they only shift the exponent of the double), so the formatted string is
the decimal `size / 2^20` rounded to one fractional digit half-to-even. -/
def fmt1 (size : Nat) : String :=
  toString (roundHalfEven (size * 10) (1024 * 1024) / 10) ++ "." ++
    toString (roundHalfEven (size * 10) (1024 * 1024) % 10)

/-- The `st.error` message of line 261 of app.py with both f-string fields
substituted (`max_size_mb = 10`). -/
def tooLargeMsg (size : Nat) : String :=
  "❌ File too large! Maximum size allowed is 10MB. Your file is " ++ fmt1 size ++ "MB."

/-- The `st.success` message of line 266 of app.py. -/
def successMsg (size : Nat) : String :=
  "✅ Image uploaded successfully! (" ++ fmt1 size ++ "MB)"

/-- Lines 252-267 of app.py: the size check applied to a non-None upload.
The result is the value stored in `st.session_state.uploaded_file`
(identified by its size; `none` on rejection) together with the message
shown to the user. -/
def checkUpload (size : Nat) : Option Nat × String :=
  if maxUploadBytes < size then (none, tooLargeMsg size)
  else (some size, successMsg size)

/-- Lines 271-277 and 425-429 of app.py: the Analyze button is rendered
only under `if st.session_state.uploaded_file:`, and `analyze_image`
(where `Image.open`, the only decode, happens) is reached only when that
button returns True. So decoding is possible only when a file is stored. -/
def canAnalyze (stored : Option Nat) : Bool := stored.isSome

lemma roundAspect1_close (num den : Nat) (hden : 0 < den) :
    roundAspect1 num den * den ≤ num + den ∧ num ≤ roundAspect1 num den * den + den := by
  unfold roundAspect1
  obtain ⟨q, hq⟩ : ∃ q, num / den = q := ⟨_, rfl⟩
  obtain ⟨r, hr⟩ : ∃ r, num % den = r := ⟨_, rfl⟩
  have h1 : den * q + r = num := by rw [← hq, ← hr]; exact Nat.div_add_mod num den
  have h2 : r < den := by rw [← hr]; exact Nat.mod_lt num hden
  have hc : q * den = den * q := Nat.mul_comm _ _
  have hc2 : (q + 1) * den = den * q + den := by ring
  rw [hq, hr]
  split
  · rcases Nat.eq_zero_or_pos q with h0 | h0
    · subst h0
      have hmax : max 1 0 = 1 := rfl
      rw [hmax]
      omega
    · rw [Nat.max_eq_right h0]
      omega
  · have hmax : max 1 (q + 1) = q + 1 := Nat.max_eq_right (Nat.le_add_left 1 q)
    rw [hmax]
    omega

lemma roundAspect2_close (num den : Nat) (hden : 0 < den) :
    roundAspect2 num den * den ≤ num + den ∧ num ≤ roundAspect2 num den * den + den := by
  unfold roundAspect2
  obtain ⟨q, hq⟩ : ∃ q, num / den = q := ⟨_, rfl⟩
  obtain ⟨r, hr⟩ : ∃ r, num % den = r := ⟨_, rfl⟩
  have h1 : den * q + r = num := by rw [← hq, ← hr]; exact Nat.div_add_mod num den
  have h2 : r < den := by rw [← hr]; exact Nat.mod_lt num hden
  have hc : q * den = den * q := Nat.mul_comm _ _
  have hc2 : (q + 1) * den = den * q + den := by ring
  rw [hq, hr]
  split
  · rcases Nat.eq_zero_or_pos q with h0 | h0
    · subst h0
      have hmax : max 1 0 = 1 := rfl
      rw [hmax]
      omega
    · rw [Nat.max_eq_right h0]
      omega
  · split
    · rename_i hrne h0
      subst h0
      omega
    · split
      · omega
      · omega

lemma div_le_of_le_mulb (num den m : Nat) (hden : 0 < den) (hnum : num ≤ m * den) :
    num / den ≤ m := by
  have h : num / den ≤ m * den / den := Nat.div_le_div_right hnum
  rwa [Nat.mul_div_left m hden] at h

lemma div_lt_of_mod_pos (num den m : Nat) (hden : 0 < den) (hnum : num ≤ m * den)
    (hrpos : 0 < num % den) : num / den < m := by
  rcases Nat.lt_or_ge (num / den) m with h | h
  · exact h
  · exfalso
    have hge : m * den ≤ num := (Nat.le_div_iff_mul_le hden).mp h
    have heq : num = m * den := le_antisymm hnum hge
    rw [heq, Nat.mul_mod_left] at hrpos
    exact Nat.lt_irrefl 0 hrpos

lemma roundAspect1_le (num den m : Nat) (hden : 0 < den) (hm : 1 ≤ m)
    (hnum : num ≤ m * den) :
    roundAspect1 num den ≤ m := by
  have hf : num / den ≤ m := div_le_of_le_mulb num den m hden hnum
  unfold roundAspect1
  split
  · rcases Nat.eq_zero_or_pos (num / den) with h0 | h0
    · rw [h0]
      exact hm
    · rw [Nat.max_eq_right h0]
      exact hf
  · rename_i hcond
    have hlt : num / den < m :=
      div_lt_of_mod_pos num den m hden hnum (by omega)
    have hmax : max 1 (num / den + 1) = num / den + 1 :=
      Nat.max_eq_right (Nat.le_add_left 1 _)
    rw [hmax]
    omega

lemma roundAspect2_le (num den m : Nat) (hden : 0 < den) (hm : 1 ≤ m)
    (hnum : num ≤ m * den) :
    roundAspect2 num den ≤ m := by
  have hf : num / den ≤ m := div_le_of_le_mulb num den m hden hnum
  unfold roundAspect2
  split
  · rcases Nat.eq_zero_or_pos (num / den) with h0 | h0
    · rw [h0]
      exact hm
    · rw [Nat.max_eq_right h0]
      exact hf
  · rename_i hrne
    have hlt : num / den < m :=
      div_lt_of_mod_pos num den m hden hnum (by omega)
    split
    · exact hm
    · split
      · exact hf
      · omega

lemma thumbnail_bounds (j : Img) (m : Nat) (hm : 1 ≤ m) :
    (thumbnail j m).width ≤ m ∧ (thumbnail j m).height ≤ m := by
  unfold thumbnail
  split
  · rename_i h
    exact ⟨h.1, h.2⟩
  · rename_i h
    split
    · rename_i hwh
      have hden : 0 < j.height := by omega
      exact ⟨roundAspect1_le _ _ _ hden hm (Nat.mul_le_mul_left m hwh), le_refl m⟩
    · rename_i hwh
      have hden : 0 < j.width := by omega
      exact ⟨le_refl m, roundAspect2_le _ _ _ hden hm (Nat.mul_le_mul_left m (by omega))⟩

lemma thumbnail_long (j : Img) (m : Nat) (hm : 1 ≤ m)
    (hex : m < j.width ∨ m < j.height) :
    max (thumbnail j m).width (thumbnail j m).height = m := by
  unfold thumbnail
  split
  · rename_i h
    omega
  · rename_i h
    split
    · rename_i hwh
      have hden : 0 < j.height := by omega
      have hv : roundAspect1 (m * j.width) j.height ≤ m :=
        roundAspect1_le _ _ _ hden hm (Nat.mul_le_mul_left m hwh)
      exact max_eq_right hv
    · rename_i hwh
      have hden : 0 < j.width := by omega
      have hv : roundAspect2 (m * j.height) j.width ≤ m :=
        roundAspect2_le _ _ _ hden hm (Nat.mul_le_mul_left m (by omega))
      exact max_eq_left hv

lemma aspect1px_self (j : Img) : aspect1px j j = true := by
  unfold aspect1px
  split <;> simp only [Bool.and_eq_true, decide_eq_true_eq] <;> omega

lemma thumbnail_aspect (j : Img) (m : Nat) : aspect1px j (thumbnail j m) = true := by
  unfold thumbnail
  split
  · exact aspect1px_self j
  · rename_i h
    split
    · rename_i hwh
      have hden : 0 < j.height := by omega
      have hcl := roundAspect1_close (m * j.width) j.height hden
      unfold aspect1px
      split
      · simp only [Bool.and_eq_true, decide_eq_true_eq]
        have hcomm : j.width * m = m * j.width := Nat.mul_comm _ _
        omega
      · rename_i habs
        omega
    · rename_i hwh
      have hden : 0 < j.width := by omega
      have hcl := roundAspect2_close (m * j.height) j.width hden
      unfold aspect1px
      split
      · rename_i habs
        omega
      · simp only [Bool.and_eq_true, decide_eq_true_eq]
        have hcomm : j.height * m = m * j.height := Nat.mul_comm _ _
        omega

lemma tryQualities_lt (enc : Img → Nat → Nat) (img : Img) (qs : List Nat) (q n : Nat)
    (h : tryQualities enc img qs = some (q, n)) : n < maxBytes := by
  induction qs with
  | nil => simp [tryQualities] at h
  | cons a as ih =>
    unfold tryQualities at h
    split at h
    · rename_i hlt
      simp only [Option.some.injEq, Prod.mk.injEq] at h
      obtain ⟨hq, hn⟩ := h
      subst hn
      exact hlt
    · exact ih h

lemma tryQualities_eq_find (enc : Img → Nat → Nat) (img : Img) (qs : List Nat) :
    tryQualities enc img qs
      = (qs.find? (fun q => decide (enc img q < maxBytes))).map (fun q => (q, enc img q)) := by
  induction qs with
  | nil => rfl
  | cons a as ih =>
    unfold tryQualities
    by_cases h : enc img a < maxBytes
    · rw [if_pos h, List.find?_cons_of_pos _ (by simpa using h)]
      rfl
    · rw [if_neg h, List.find?_cons_of_neg _ (by simpa using h), ih]

lemma dimLoop_spec (enc : Img → Nat → Nat) (ds : List Nat) (img : Img) :
    (dimLoop enc img ds).2.1 < maxBytes
    ∨ ((dimLoop enc img ds).1.width ≤ 480 ∧ (dimLoop enc img ds).1.height ≤ 480
        ∧ (dimLoop enc img ds).2.1 = enc (dimLoop enc img ds).1 30) := by
  induction ds generalizing img with
  | nil =>
    unfold dimLoop finalFallback
    right
    have hb := thumbnail_bounds img 480 (by omega)
    exact ⟨hb.1, hb.2, rfl⟩
  | cons d ds ih =>
    unfold dimLoop
    split
    · split
      · rename_i hsz
        left
        exact hsz
      · exact ih _
    · exact ih _

lemma analyzeRun_first (svc : String → Option String) (gen : String → Option (List Nat))
    (ms1 : List String) (m : String) (ms2 : List String) (t : String)
    (h1 : ∀ x ∈ ms1, svc x = none) (h2 : svc m = some t) :
    analyzeRun svc gen (ms1 ++ m :: ms2) = (Except.ok ⟨t, gen t, m⟩, 1) := by
  induction ms1 with
  | nil =>
    rw [List.nil_append]
    unfold analyzeRun
    rw [h2]
  | cons a as ih =>
    rw [List.cons_append]
    have ha : svc a = none := h1 a (List.mem_cons_self a as)
    unfold analyzeRun
    rw [ha]
    exact ih (fun x hx => h1 x (List.mem_cons_of_mem a hx))

lemma analyzeRun_exhaust (svc : String → Option String) (gen : String → Option (List Nat))
    (ms : List String) (h : ∀ x ∈ ms, svc x = none) :
    analyzeRun svc gen ms = (Except.error "All models failed. Please try again later.", 0) := by
  induction ms with
  | nil => rfl
  | cons a as ih =>
    have ha : svc a = none := h a (List.mem_cons_self a as)
    unfold analyzeRun
    rw [ha]
    exact ih (fun x hx => h x (List.mem_cons_of_mem a hx))

example : convertRGBA ⟨10, 20, "RGBA"⟩ = ⟨10, 20, "RGB"⟩ := by decide
example : convertRGBA ⟨10, 20, "LA"⟩ = ⟨10, 20, "LA"⟩ := by decide
example : thumbnail ⟨4000, 2000, "RGB"⟩ 1920 = ⟨1920, 960, "RGB"⟩ := by decide
example : thumbnail ⟨100, 100, "RGB"⟩ 1920 = ⟨100, 100, "RGB"⟩ := by decide
example : thumbnail ⟨2000, 4000, "RGB"⟩ 1920 = ⟨960, 1920, "RGB"⟩ := by decide
example : aspect1px ⟨4000, 2000, "RGB"⟩ ⟨1920, 960, "RGB"⟩ = true := by decide
example : fmt1 11534336 = "11.0" := by decide
example : fmt1 (10 * 1024 * 1024 + 52429) = "10.1" := by decide
example :
    (analyzeRun (fun s => if s = "D" then some "x" else none) (fun _ => none)
      ["A", "B", "C", "D"]).1 = Except.ok ⟨"x", none, "D"⟩ := rfl
example :
    (generateAudio (fun _ => Except.error ()) (some FailPoint.synthesis) [7] "t.wav" []
      "hi").2 = ["t.wav"] := by decide

/-- Modelled from the PIL mode documentation: the raw color modes whose
pixels carry an alpha channel. The spec speaks of a color mode that
includes an alpha channel, which is strictly larger than the single mode
string the code tests for. -/
def hasAlpha (mode : String) : Bool :=
  mode == "RGBA" || mode == "RGBa" || mode == "LA" || mode == "La" || mode == "PA"

/-- An encoder for the C7 witness: 5 MiB is first undercut at quality 50. -/
def encW : Img → Nat → Nat := fun _ q => if q = 50 then 1000 else 10 * 1024 * 1024

/-- A description service for the C2 witness: variants A, B, C raise and
variant D answers with the text a red ball. -/
def svcRedBall : String → Option String :=
  fun s => if s = "D" then some "a red ball" else none

/-- C1 (amended): the reducer terminates on every input (it is a total
function) and returns a payload that either passed one of the explicit
size checks, and is then strictly below 5 MiB, or was produced by the
final unconditional fallback, i.e. is the quality-30 encoding of an image
whose dimensions are at most 480 by 480, returned without any size check.
The 5 MiB ceiling therefore holds on all checked paths but is not enforced
on the final fallback path. -/
theorem C1_amended (enc : Img → Nat → Nat) (img : Img) :
    (imageToBase64 enc img).2.1 < maxBytes
    ∨ ((imageToBase64 enc img).1.width ≤ 480 ∧ (imageToBase64 enc img).1.height ≤ 480
        ∧ (imageToBase64 enc img).2.1 = enc (imageToBase64 enc img).1 30) := by
  unfold imageToBase64
  split
  · rename_i q n htq
    left
    exact tryQualities_lt enc (preprocess img) qualityLadder q n htq
  · exact dimLoop_spec enc dimLadder (preprocess img)

/-- C1 (counterexample): the claim that every returned payload is strictly
below 5 MiB is not enforced by the code. The encoder is an external
parameter the code does not constrain; for an encoder that always produces
6 MiB (an incompressible input in the sense of spec section 8), a 100 by
100 image falls through every size-checked path and the final fallback
returns its 6 MiB encoding with no check. -/
theorem C1_counterexample :
    ¬ ((imageToBase64 (fun _ _ => 6 * 1024 * 1024) ⟨100, 100, "RGB"⟩).2.1
        < 5 * 1024 * 1024) := by decide

/-- C2: the service variants are tried one at a time in the listed order
and the first variant that returns a non-error response determines the
result: its text is the description and its identifier is recorded as
model_used. -/
theorem C2_first_success (svc : String → Option String) (gen : String → Option (List Nat))
    (ms1 : List String) (m : String) (ms2 : List String) (t : String)
    (h1 : ∀ x ∈ ms1, svc x = none) (h2 : svc m = some t) :
    (analyzeRun svc gen (ms1 ++ m :: ms2)).1 = Except.ok ⟨t, gen t, m⟩ := by
  rw [analyzeRun_first svc gen ms1 m ms2 t h1 h2]

/-- C2 (witness): with variants A, B, C, D where A, B, C raise and D
returns the text a red ball, the result text is a red ball and model_used
is D. -/
theorem C2_witness :
    (analyzeRun svcRedBall (fun _ => none) ["A", "B", "C", "D"]).1
      = Except.ok ⟨"a red ball", none, "D"⟩ :=
  C2_first_success svcRedBall (fun _ => none) ["A", "B", "C"] "D" [] "a red ball"
    (by decide) (by decide)

/-- C3: if every variant errors, the pipeline returns the All models
failed error and the synthesis-call counter is zero, i.e. no
speech-synthesis call is attempted. -/
theorem C3_exhausted (svc : String → Option String) (gen : String → Option (List Nat))
    (ms : List String) (h : ∀ x ∈ ms, svc x = none) :
    analyzeRun svc gen ms
      = (Except.error "All models failed. Please try again later.", 0) :=
  analyzeRun_exhaust svc gen ms h

/-- C3 (witness): all four variants of the real priority list failing. -/
theorem C3_witness :
    analyzeRun (fun _ => none) (fun _ => none) visionModels
      = (Except.error "All models failed. Please try again later.", 0) :=
  C3_exhausted (fun _ => none) (fun _ => none) visionModels (fun _ __ => rfl)

/-- C4: if some variant returns text but both speech backends fail, the
pipeline still returns the text with an absent (none) audio result, and
the result is ok, not an error. -/
theorem C4_text_without_audio (svc : String → Option String)
    (gtts : String → Except Unit (List Nat)) (failAt : Option FailPoint)
    (synthBytes : List Nat) (tmp : String) (fs : List String)
    (ms1 : List String) (m : String) (ms2 : List String) (t : String)
    (h1 : ∀ x ∈ ms1, svc x = none) (h2 : svc m = some t)
    (hg : gtts t = Except.error ())
    (hp : (pyttsx3Body failAt synthBytes tmp fs).1 = Except.error ()) :
    (analyzeRun svc
        (fun s => ttsToOption (generateAudio gtts failAt synthBytes tmp fs s).1)
        (ms1 ++ m :: ms2)).1
      = Except.ok ⟨t, none, m⟩ := by
  have hfirst := analyzeRun_first svc
    (fun s => ttsToOption (generateAudio gtts failAt synthBytes tmp fs s).1) ms1 m ms2 t h1 h2
  rw [hfirst]
  have hgen : ttsToOption (generateAudio gtts failAt synthBytes tmp fs t).1 = none := by
    rcases hE : pyttsx3Body failAt synthBytes tmp fs with ⟨e, fs2⟩
    rw [hE] at hp
    simp only at hp
    subst hp
    unfold generateAudio
    rw [hg, hE]
    rfl
  simp only [hgen]

/-- C4 (witness): one variant succeeding with the text hello while gTTS
raises and the pyttsx3 fallback raises during synthesis. -/
theorem C4_witness :
    (analyzeRun (fun s => if s = "A" then some "hello" else none)
        (fun s => ttsToOption
          (generateAudio (fun _ => Except.error ()) (some FailPoint.synthesis)
            [7] "t.wav" [] s).1)
        ["A"]).1
      = Except.ok ⟨"hello", none, "A"⟩ :=
  C4_text_without_audio (fun s => if s = "A" then some "hello" else none)
    (fun _ => Except.error ()) (some FailPoint.synthesis) [7] "t.wav" []
    [] "A" [] "hello" (by decide) (by decide) rfl rfl

/-- C5 (code behaviour at the failing input): when gTTS fails and the
pyttsx3 fallback raises during synthesis, after the temporary file has
been created, the call returns None but the temporary file is still
present in the filesystem, because os.unlink on line 188 of app.py is only
reached on the success path. This refutes deletion on every exit path. -/
theorem C5_temp_file_leak :
    (generateAudio (fun _ => Except.error ()) (some FailPoint.synthesis) [7] "t.wav" []
        "hi").2 = ["t.wav"]
    ∧ (generateAudio (fun _ => Except.error ()) (some FailPoint.synthesis) [7] "t.wav" []
        "hi").1 = TtsOutcome.val none :=
  ⟨rfl, rfl⟩

/-- C6 (counterexample): the mode LA carries an alpha channel but is not
flattened: the conversion step passes it through unchanged, so not every
alpha-bearing mode is converted before encoding. -/
theorem C6_counterexample :
    hasAlpha "LA" = true ∧ convertRGBA ⟨8, 8, "LA"⟩ = ⟨8, 8, "LA"⟩
      ∧ hasAlpha (convertRGBA ⟨8, 8, "LA"⟩).mode = true := by
  decide

/-- C6 (amended): exactly the images whose color mode is the single string
RGBA are flattened to the opaque three-channel mode RGB by the first step
of the reducer (dimensions unchanged); every other mode, alpha-bearing or
not, is passed through unchanged. -/
theorem C6_amended (img : Img) :
    (img.mode = "RGBA" → convertRGBA img = { img with mode := "RGB" })
    ∧ (img.mode ≠ "RGBA" → convertRGBA img = img) := by
  unfold convertRGBA
  constructor
  · intro h
    rw [if_pos h]
  · intro h
    rw [if_neg h]

/-- C6 (witness): an RGBA image is flattened to RGB. -/
theorem C6_witness : convertRGBA ⟨8, 8, "RGBA"⟩ = ⟨8, 8, "RGB"⟩ :=
  (C6_amended ⟨8, 8, "RGBA"⟩).1 rfl

/-- C7: the quality ladder tries 85, 70, 50, 30 in that order on the
preprocessed image and its result is exactly the first quality whose
encoded byte length is strictly below 5 MiB (the find-first
characterisation); whenever it accepts, the whole reducer returns that
encoding, so no later quality is tried after an accepted one. -/
theorem C7_quality_ladder (enc : Img → Nat → Nat) (img : Img) :
    tryQualities enc (preprocess img) qualityLadder
      = (qualityLadder.find? (fun q => decide (enc (preprocess img) q < maxBytes))).map
          (fun q => (q, enc (preprocess img) q))
    ∧ ∀ q n, tryQualities enc (preprocess img) qualityLadder = some (q, n) →
        imageToBase64 enc img = (preprocess img, n, "jpeg") := by
  refine ⟨tryQualities_eq_find enc (preprocess img) qualityLadder, ?_⟩
  intro q n h
  unfold imageToBase64
  rw [h]

/-- C7 (witness): an encoder whose first sub-5-MiB level is quality 50. -/
theorem C7_witness :
    imageToBase64 encW ⟨10, 10, "RGB"⟩ = (preprocess ⟨10, 10, "RGB"⟩, 1000, "jpeg") :=
  (C7_quality_ladder encW ⟨10, 10, "RGB"⟩).2 50 1000 (by decide)

/-- C8: an upload strictly larger than 10 MiB is rejected: nothing is
stored in the session (so the Analyze gate is closed and no decode can be
reached) and the user-visible message is the too-large message, which
reports the actual size in MiB to one decimal place via fmt1. -/
theorem C8_reject_oversized (size : Nat) (h : maxUploadBytes < size) :
    checkUpload size = (none, tooLargeMsg size)
    ∧ canAnalyze (checkUpload size).1 = false := by
  unfold checkUpload
  rw [if_pos h]
  exact ⟨rfl, rfl⟩

/-- C8 (witness): an 11 MiB file (11534336 bytes) is rejected with the
message reporting 11.0MB, and nothing is stored. -/
theorem C8_witness :
    checkUpload 11534336
        = (none, "❌ File too large! Maximum size allowed is 10MB. Your file is 11.0MB.")
      ∧ canAnalyze (checkUpload 11534336).1 = false := by
  have h := C8_reject_oversized 11534336 (by decide)
  refine ⟨?_, h.2⟩
  rw [h.1]
  decide

/-- C9: for every downscale bound used by the reducer (1920 in the
preprocessing step, 1280, 960, 640 in the aggressive loop, 480 in the
final fallback), if a dimension exceeds the bound then the thumbnail call
makes the longer side exactly the bound and preserves the aspect ratio to
within one pixel of rounding on the shorter side; in particular the
1920-step of the reducer itself satisfies both properties. -/
theorem C9_downscale (img : Img) (m : Nat)
    (hm : m ∈ [1920, 1280, 960, 640, 480])
    (hex : m < img.width ∨ m < img.height) :
    (max (thumbnail img m).width (thumbnail img m).height = m
      ∧ aspect1px img (thumbnail img m) = true)
    ∧ (1920 < img.width ∨ 1920 < img.height →
        max (preprocess img).width (preprocess img).height = 1920
          ∧ aspect1px img (preprocess img) = true) := by
  have hm1 : 1 ≤ m := by
    simp only [List.mem_cons, List.not_mem_nil, or_false] at hm
    omega
  refine ⟨⟨thumbnail_long img m hm1 hex, thumbnail_aspect img m⟩, ?_⟩
  intro h1920
  have hdw : (convertRGBA img).width = img.width := by
    unfold convertRGBA
    split <;> rfl
  have hdh : (convertRGBA img).height = img.height := by
    unfold convertRGBA
    split <;> rfl
  have hex2 : 1920 < (convertRGBA img).width ∨ 1920 < (convertRGBA img).height := by
    rw [hdw, hdh]
    exact h1920
  have hpre : preprocess img = thumbnail (convertRGBA img) 1920 := by
    unfold preprocess
    rw [if_pos hex2]
  rw [hpre]
  constructor
  · exact thumbnail_long (convertRGBA img) 1920 (by omega) hex2
  · have ha := thumbnail_aspect (convertRGBA img) 1920
    unfold aspect1px at ha ⊢
    rw [hdw, hdh] at ha
    exact ha

/-- C9 (witness): a 4000 by 2000 image is downscaled by the 1920-step to
1920 by 960, longer side exactly 1920, aspect preserved. -/
theorem C9_witness :
    max (thumbnail ⟨4000, 2000, "RGB"⟩ 1920).width
        (thumbnail ⟨4000, 2000, "RGB"⟩ 1920).height = 1920
      ∧ aspect1px ⟨4000, 2000, "RGB"⟩ (thumbnail ⟨4000, 2000, "RGB"⟩ 1920) = true :=
  (C9_downscale ⟨4000, 2000, "RGB"⟩ 1920 (by decide) (by decide)).1

/-- C10: _generate_audio is total at its public interface: for every
combination of backend behaviours it returns a value (audio bytes or
none) and never lets an exception escape, because both handlers are bare
excepts. -/
theorem C10_total (gtts : String → Except Unit (List Nat)) (failAt : Option FailPoint)
    (synthBytes : List Nat) (tmp : String) (fs : List String) (text : String) :
    ∃ o, (generateAudio gtts failAt synthBytes tmp fs text).1 = TtsOutcome.val o := by
  unfold generateAudio
  cases hg : gtts text with
  | ok b => exact ⟨some b, rfl⟩
  | error e =>
    rcases hE : pyttsx3Body failAt synthBytes tmp fs with ⟨e2, fs2⟩
    cases e2 with
    | ok b => exact ⟨some b, rfl⟩
    | error u => exact ⟨none, rfl⟩

end Percepto
